import Mathlib

set_option maxHeartbeats 1000000

namespace TicTacToe

/-- Modelled from the spec: a board cell holds Empty, MarkX or MarkO (§3 of the
specification; the repository's lessons only ship a static renderer whose JS
cells hold null, the X string or the O string, and never implement the engine). -/
inductive Cell
  | Empty
  | MarkX
  | MarkO
deriving DecidableEq, Repr

/-- The two player symbols. -/
inductive Symbol
  | X
  | O
deriving DecidableEq, Repr

/-- The mark a symbol places on the board. -/
def Symbol.mark : Symbol → Cell
  | Symbol.X => Cell.MarkX
  | Symbol.O => Cell.MarkO

/-- The opposing symbol. -/
def Symbol.other : Symbol → Symbol
  | Symbol.X => Symbol.O
  | Symbol.O => Symbol.X

/-- Modelled from the spec: game status (§3), missing from the repository code. -/
inductive Status
  | InProgress
  | Won (s : Symbol)
  | Draw
deriving DecidableEq, Repr

/-- A 3×3 board, row-major. -/
abbrev Board := Fin 3 → Fin 3 → Cell

/-- Modelled from the spec: the immutable GameState record of §3, missing from
the repository code. -/
structure GameState where
  board : Board
  activePlayer : Symbol
  status : Status
deriving DecidableEq

/-- Modelled from the spec: the error taxonomy of §7, missing from the
repository code. -/
inductive MoveError
  | GameOver
  | OutOfBounds
  | CellOccupied
deriving DecidableEq, Repr

/-- One winning line: a fixed triple of board positions. -/
structure Line where
  p1 : Fin 3 × Fin 3
  p2 : Fin 3 × Fin 3
  p3 : Fin 3 × Fin 3
deriving DecidableEq, Repr

/-- The 8 fixed winning lines: 3 rows, 3 columns, 2 diagonals. -/
def winningLines : List Line :=
  [⟨(0, 0), (0, 1), (0, 2)⟩, ⟨(1, 0), (1, 1), (1, 2)⟩, ⟨(2, 0), (2, 1), (2, 2)⟩,
   ⟨(0, 0), (1, 0), (2, 0)⟩, ⟨(0, 1), (1, 1), (2, 1)⟩, ⟨(0, 2), (1, 2), (2, 2)⟩,
   ⟨(0, 0), (1, 1), (2, 2)⟩, ⟨(0, 2), (1, 1), (2, 0)⟩]

/-- The cell of a board at a position pair. -/
def cellAt (b : Board) (p : Fin 3 × Fin 3) : Cell := b p.1 p.2

/-- A line is won by symbol s when all three of its cells carry the mark of s
(so all three are equal and non-Empty). -/
def lineWins (b : Board) (l : Line) (s : Symbol) : Prop :=
  cellAt b l.p1 = s.mark ∧ cellAt b l.p2 = s.mark ∧ cellAt b l.p3 = s.mark

instance (b : Board) (l : Line) (s : Symbol) : Decidable (lineWins b l s) :=
  inferInstanceAs (Decidable (_ = _ ∧ _ = _ ∧ _ = _))

/-- The symbol winning one line, if any. -/
def lineWinner (b : Board) (l : Line) : Option Symbol :=
  if lineWins b l Symbol.X then some Symbol.X
  else if lineWins b l Symbol.O then some Symbol.O
  else none

/-- Modelled from the spec: win detection scans the 8 fixed lines in a fixed
deterministic order and returns the first winner found (§4.1). -/
def winner (b : Board) : Option Symbol :=
  (winningLines.filterMap (lineWinner b)).head?

/-- All 9 cells are occupied. -/
def fullBoard (b : Board) : Prop := ∀ i j, b i j ≠ Cell.Empty

instance (b : Board) : Decidable (fullBoard b) :=
  inferInstanceAs (Decidable (∀ i j, b i j ≠ Cell.Empty))

/-- Some one of the 8 winning lines is fully occupied by symbol s. -/
def hasWinLine (b : Board) (s : Symbol) : Prop := ∃ l ∈ winningLines, lineWins b l s

instance (b : Board) (s : Symbol) : Decidable (hasWinLine b s) :=
  inferInstanceAs (Decidable (∃ l ∈ winningLines, lineWins b l s))

/-- Modelled from the spec: status recomputation after a move (§4.1) — Won on a
three-in-a-row, else Draw when all 9 cells are occupied, else InProgress. -/
def computeStatus (b : Board) : Status :=
  match winner b with
  | some s => Status.Won s
  | none => if fullBoard b then Status.Draw else Status.InProgress

/-- Functional update of one board cell. -/
def setCell (b : Board) (r c : Fin 3) (v : Cell) : Board :=
  fun i j => if i = r ∧ j = c then v else b i j

/-- Modelled from the spec: applyMove (§4.1), missing from the repository code.
Checks, in order, that the game is still running (else GameOver), that row and
col are in [0,2] (else OutOfBounds) and that the target cell is Empty (else
CellOccupied); on success places the active player's mark, recomputes the
status, and flips the active player only when the new status is InProgress. -/
def applyMove (st : GameState) (row col : Int) : Except MoveError GameState :=
  if st.status ≠ Status.InProgress then Except.error MoveError.GameOver
  else if h : 0 ≤ row ∧ row ≤ 2 ∧ 0 ≤ col ∧ col ≤ 2 then
    let r : Fin 3 := ⟨row.toNat, by omega⟩
    let c : Fin 3 := ⟨col.toNat, by omega⟩
    if st.board r c ≠ Cell.Empty then Except.error MoveError.CellOccupied
    else
      let b2 : Board := setCell st.board r c st.activePlayer.mark
      let s2 : Status := computeStatus b2
      Except.ok
        { board := b2
          activePlayer :=
            if s2 = Status.InProgress then st.activePlayer.other else st.activePlayer
          status := s2 }
  else Except.error MoveError.OutOfBounds

/-- Modelled from the spec: resetGame returns the fresh initial state of §3
(all cells Empty, X to move, game in progress), missing from the repository
code; its board corresponds to the lessons' initialGameBoard of all-null rows. -/
def resetGame : GameState :=
  { board := fun _ _ => Cell.Empty
    activePlayer := Symbol.X
    status := Status.InProgress }

/-- Fold a list of move intents through applyMove, stopping at the first error. -/
def playMoves (st : GameState) : List (Int × Int) → Except MoveError GameState
  | [] => Except.ok st
  | m :: ms =>
    match applyMove st m.1 m.2 with
    | Except.ok st2 => playMoves st2 ms
    | Except.error e => Except.error e

/-- The state a driver holds after a move intent: the new state on success,
the unchanged old state on a rejected move. -/
def nextState (st : GameState) (row col : Int) : GameState :=
  match applyMove st row col with
  | Except.ok st2 => st2
  | Except.error _ => st

/-- States reachable from the initial state by accepted moves. -/
inductive Reachable : GameState → Prop
  | init : Reachable resetGame
  | step {st st2 : GameState} {row col : Int} :
      Reachable st → applyMove st row col = Except.ok st2 → Reachable st2

/-- Number of cells of a board carrying a given value. -/
def countMark (b : Board) (w : Cell) : Nat :=
  (Finset.univ.filter fun p : Fin 3 × Fin 3 => b p.1 p.2 = w).card

instance : DecidableEq (Except MoveError GameState) := fun a b =>
  match a, b with
  | Except.error e1, Except.error e2 =>
    if h : e1 = e2 then isTrue (by rw [h])
    else isFalse (fun hc => by cases hc; exact h rfl)
  | Except.error _, Except.ok _ => isFalse (fun hc => by cases hc)
  | Except.ok _, Except.error _ => isFalse (fun hc => by cases hc)
  | Except.ok x, Except.ok y =>
    if h : x = y then isTrue (by rw [h])
    else isFalse (fun hc => by cases hc; exact h rfl)

example : applyMove resetGame 0 0 ≠ Except.error MoveError.GameOver := by decide

example : nextState resetGame 5 0 = resetGame := by decide

/-- The winning scenario from §8: X(0,0), O(1,1), X(0,1), O(2,2), X(0,2). -/
def scenarioMoves : List (Int × Int) := [(0, 0), (1, 1), (0, 1), (2, 2), (0, 2)]

/-- The state the winning scenario ends in: top row all X, O at (1,1) and
(2,2), X has won and no turn flip happened. -/
def scenarioFinal : GameState :=
  (playMoves resetGame scenarioMoves).toOption.getD resetGame

lemma eq_ok_getD {e : Except MoveError GameState} (h : e.isOk = true) :
    e = Except.ok (e.toOption.getD resetGame) := by
  cases e with
  | ok a => rfl
  | error a => exact Bool.noConfusion h

lemma playMoves_scenario : playMoves resetGame scenarioMoves = Except.ok scenarioFinal :=
  eq_ok_getD rfl

example : scenarioFinal.status = Status.Won Symbol.X := by decide

example : scenarioFinal.activePlayer = Symbol.X := by decide

/-- HTML element tags occurring in the repository's components. -/
inductive Tag
  | ol
  | li
  | span
  | button
  | textInput
  | header
deriving DecidableEq, Repr

/-- Attribute names occurring in the repository's components (classSymobol is
the literal, misspelled attribute in the shipped Player.jsx). -/
inductive AttrName
  | className
  | classSymobol
  | elemId
deriving DecidableEq, Repr

/-- Attribute values occurring in the repository's components. -/
inductive AttrVal
  | player
  | playerName
  | gameBoard
deriving DecidableEq, Repr

/-- Fixed captions occurring in the repository's components. -/
inductive Caption
  | edit
deriving DecidableEq, Repr

/-- Rendered output tree: elements with attributes and children, text holding a
prop value of type α, or a fixed caption. -/
inductive PNode (α : Type)
  | elem (tag : Tag) (attrs : List (AttrName × AttrVal)) (children : List (PNode α))
  | textNode (s : α)
  | caption (c : Caption)

/-- The shipped Player component (src/components/Player.jsx): a pure function
of its name and symbol props, rendering a list item holding the two labelled
spans and a static Edit button; it has no useState and no edit-mode input. -/
def Player (α : Type) (name symbol : α) : PNode α :=
  PNode.elem Tag.li []
    [PNode.elem Tag.span [(AttrName.className, AttrVal.player)]
      [PNode.elem Tag.span [(AttrName.className, AttrVal.playerName)]
        [PNode.textNode name],
       PNode.elem Tag.span [(AttrName.classSymobol, AttrVal.playerName)]
        [PNode.textNode symbol]],
     PNode.elem Tag.button [] [PNode.caption Caption.edit]]

mutual

/-- Whether a tag occurs anywhere in a rendered tree. -/
def hasTag {α : Type} (t : Tag) : PNode α → Bool
  | PNode.elem t2 _ cs => t2 == t || hasTagList t cs
  | PNode.textNode _ => false
  | PNode.caption _ => false

/-- Whether a tag occurs anywhere in a list of rendered trees. -/
def hasTagList {α : Type} (t : Tag) : List (PNode α) → Bool
  | [] => false
  | n :: ns => hasTag t n || hasTagList t ns

end

/-- The lessons' initial board value (concept_1.md): three rows of three null
cells. -/
def initialGameBoard : List (List (Option Symbol)) :=
  [[none, none, none], [none, none, none], [none, none, none]]

/-- The children of a rendered cell button: JSX renders nothing for a null
cell and the symbol text otherwise. -/
def buttonChildren (playerSymbol : Option Symbol) : List (PNode Symbol) :=
  match playerSymbol with
  | none => []
  | some s => [PNode.textNode s]

/-- The lessons' GameBoard component (concept_1.md): an ordered list mapping
each row of initialGameBoard to a list item holding an inner ordered list that
maps each cell to a list item holding a button displaying that cell. -/
def GameBoard : PNode Symbol :=
  PNode.elem Tag.ol [(AttrName.elemId, AttrVal.gameBoard)]
    (initialGameBoard.map fun row =>
      PNode.elem Tag.li []
        [PNode.elem Tag.ol []
          (row.map fun playerSymbol =>
            PNode.elem Tag.li [] [PNode.elem Tag.button [] (buttonChildren playerSymbol)])])

/-- The button rendered at a row and column of a board tree, when the tree has
the GameBoard shape there. -/
def buttonAt (g : PNode Symbol) (i j : Nat) : Option (PNode Symbol) :=
  match g with
  | PNode.elem _ _ rows =>
    match rows[i]? with
    | some (PNode.elem _ _ [PNode.elem _ _ cells]) =>
      match cells[j]? with
      | some (PNode.elem _ _ [btn]) => some btn
      | _ => none
    | _ => none
  | _ => none

/-- The board entry at a row and column of initialGameBoard. -/
def entryAt (i j : Nat) : Option (Option Symbol) :=
  (initialGameBoard[i]?).bind fun row => row[j]?

lemma Symbol.other_other (s : Symbol) : s.other.other = s := by
  cases s <;> rfl

lemma Symbol.mark_ne_empty (s : Symbol) : s.mark ≠ Cell.Empty := by
  cases s <;> simp [Symbol.mark]

/-- The state an accepted move produces. -/
def moveResult (st : GameState) (r c : Fin 3) : GameState :=
  { board := setCell st.board r c st.activePlayer.mark
    activePlayer :=
      if computeStatus (setCell st.board r c st.activePlayer.mark) = Status.InProgress then
        st.activePlayer.other
      else st.activePlayer
    status := computeStatus (setCell st.board r c st.activePlayer.mark) }

lemma applyMove_eq_ok (st : GameState) (r c : Fin 3)
    (hstat : st.status = Status.InProgress) (hemp : st.board r c = Cell.Empty) :
    applyMove st ((r : Nat) : Int) ((c : Nat) : Int) = Except.ok (moveResult st r c) := by
  have hb : (0 : Int) ≤ ((r : Nat) : Int) ∧ ((r : Nat) : Int) ≤ 2 ∧
      (0 : Int) ≤ ((c : Nat) : Int) ∧ ((c : Nat) : Int) ≤ 2 := by
    have hr := r.isLt
    have hc := c.isLt
    omega
  unfold applyMove
  rw [if_neg (not_not_intro hstat), dif_pos hb]
  simp only [Int.toNat_natCast, Fin.eta]
  rw [if_neg (not_not_intro hemp)]
  rfl

lemma applyMove_ok_spec {st st2 : GameState} {row col : Int}
    (h : applyMove st row col = Except.ok st2) :
    st.status = Status.InProgress ∧
    ∃ r c : Fin 3, st.board r c = Cell.Empty ∧
      st2.board = setCell st.board r c st.activePlayer.mark ∧
      st2.status = computeStatus st2.board ∧
      st2.activePlayer =
        (if st2.status = Status.InProgress then st.activePlayer.other else st.activePlayer) := by
  unfold applyMove at h
  by_cases h1 : st.status ≠ Status.InProgress
  · rw [if_pos h1] at h
    exact absurd h (by simp)
  · rw [if_neg h1] at h
    push_neg at h1
    by_cases h2 : (0 : Int) ≤ row ∧ row ≤ 2 ∧ (0 : Int) ≤ col ∧ col ≤ 2
    · rw [dif_pos h2] at h
      by_cases h3 :
          st.board ⟨row.toNat, by omega⟩ ⟨col.toNat, by omega⟩ ≠ Cell.Empty
      · rw [if_pos h3] at h
        exact absurd h (by simp)
      · rw [if_neg h3] at h
        push_neg at h3
        injection h with h4
        subst h4
        exact ⟨h1, ⟨row.toNat, by omega⟩, ⟨col.toNat, by omega⟩, h3, rfl, rfl, rfl⟩
    · rw [dif_neg h2] at h
      exact absurd h (by simp)

lemma lineWinner_eq_some {b : Board} {l : Line} {s : Symbol}
    (h : lineWinner b l = some s) : lineWins b l s := by
  unfold lineWinner at h
  split_ifs at h with h1 h2
  · cases h; exact h1
  · cases h; exact h2

lemma lineWinner_eq_none_iff {b : Board} {l : Line} :
    lineWinner b l = none ↔ ∀ s, ¬ lineWins b l s := by
  constructor
  · intro h s hw
    cases s with
    | X =>
      unfold lineWinner at h
      rw [if_pos hw] at h
      exact Option.noConfusion h
    | O =>
      unfold lineWinner at h
      by_cases h1 : lineWins b l Symbol.X
      · rw [if_pos h1] at h
        exact Option.noConfusion h
      · rw [if_neg h1, if_pos hw] at h
        exact Option.noConfusion h
  · intro h
    unfold lineWinner
    rw [if_neg (h Symbol.X), if_neg (h Symbol.O)]

lemma winner_eq_none_iff (b : Board) : winner b = none ↔ ∀ s, ¬ hasWinLine b s := by
  unfold winner
  rw [List.head?_eq_none_iff, List.filterMap_eq_nil_iff]
  constructor
  · intro h s hs
    unfold hasWinLine at hs
    obtain ⟨l, hl, hw⟩ := hs
    exact lineWinner_eq_none_iff.mp (h l hl) s hw
  · intro h l hl
    exact lineWinner_eq_none_iff.mpr fun s hw => h s ⟨l, hl, hw⟩

lemma winner_eq_some_wins {b : Board} {s : Symbol} (h : winner b = some s) :
    hasWinLine b s := by
  unfold winner at h
  have hs := List.mem_of_mem_head? h
  rw [List.mem_filterMap] at hs
  obtain ⟨l, hl, hw⟩ := hs
  exact ⟨l, hl, lineWinner_eq_some hw⟩

lemma computeStatus_won {b : Board} {s : Symbol} (h : computeStatus b = Status.Won s) :
    hasWinLine b s := by
  unfold computeStatus at h
  split at h
  · next s2 hw =>
    cases h
    exact winner_eq_some_wins hw
  · next hw =>
    split_ifs at h

lemma computeStatus_draw {b : Board} (h : computeStatus b = Status.Draw) :
    fullBoard b ∧ ∀ s, ¬ hasWinLine b s := by
  unfold computeStatus at h
  split at h
  · next s2 hw => exact Status.noConfusion h
  · next hw =>
    split_ifs at h with hf
    exact ⟨hf, (winner_eq_none_iff b).mp hw⟩

lemma computeStatus_of_win {b : Board} (h : ∃ s, hasWinLine b s) :
    ∃ s, hasWinLine b s ∧ computeStatus b = Status.Won s := by
  cases hw : winner b with
  | some s2 =>
    refine ⟨s2, winner_eq_some_wins hw, ?_⟩
    unfold computeStatus
    rw [hw]
  | none =>
    obtain ⟨s0, hs0⟩ := h
    exact absurd hs0 ((winner_eq_none_iff b).mp hw s0)

lemma computeStatus_no_win {b : Board} (h : ∀ s, ¬ hasWinLine b s) :
    computeStatus b = if fullBoard b then Status.Draw else Status.InProgress := by
  unfold computeStatus
  rw [(winner_eq_none_iff b).mpr h]

lemma setCell_same (b : Board) (r c : Fin 3) (v : Cell) :
    setCell b r c v r c = v := by
  simp [setCell]

lemma setCell_other (b : Board) (r c : Fin 3) (v : Cell) {i j : Fin 3}
    (h : ¬(i = r ∧ j = c)) : setCell b r c v i j = b i j := by
  simp only [setCell]
  rw [if_neg h]

lemma countMark_setCell (b : Board) (r c : Fin 3) (v w : Cell)
    (hemp : b r c = Cell.Empty) (hw : w ≠ Cell.Empty) :
    countMark (setCell b r c v) w = countMark b w + (if v = w then 1 else 0) := by
  classical
  unfold countMark
  rw [Finset.card_filter, Finset.card_filter]
  rw [← Finset.add_sum_erase _
        (fun p : Fin 3 × Fin 3 => if setCell b r c v p.1 p.2 = w then 1 else 0)
        (Finset.mem_univ ((r, c) : Fin 3 × Fin 3)),
      ← Finset.add_sum_erase _
        (fun p : Fin 3 × Fin 3 => if b p.1 p.2 = w then 1 else 0)
        (Finset.mem_univ ((r, c) : Fin 3 × Fin 3))]
  have hS : ∑ p ∈ Finset.univ.erase ((r, c) : Fin 3 × Fin 3),
        (if setCell b r c v p.1 p.2 = w then 1 else 0)
      = ∑ p ∈ Finset.univ.erase ((r, c) : Fin 3 × Fin 3),
        (if b p.1 p.2 = w then 1 else 0) := by
    refine Finset.sum_congr rfl fun p hp => ?_
    have hne : p ≠ (r, c) := (Finset.mem_erase.mp hp).1
    rw [setCell_other b r c v fun hrc => hne (Prod.ext hrc.1 hrc.2)]
  have e1 : (if setCell b r c v ((r, c) : Fin 3 × Fin 3).1 ((r, c) : Fin 3 × Fin 3).2 = w
      then 1 else 0) = (if v = w then 1 else 0) := by
    rw [setCell_same]
  have e2 : (if b ((r, c) : Fin 3 × Fin 3).1 ((r, c) : Fin 3 × Fin 3).2 = w
      then (1 : Nat) else 0) = 0 := by
    have : b ((r, c) : Fin 3 × Fin 3).1 ((r, c) : Fin 3 × Fin 3).2 = Cell.Empty := hemp
    rw [this, if_neg fun he => hw he.symm]
  rw [hS, e1, e2]
  omega

lemma applyMove_gameOver {st : GameState} (row col : Int)
    (h : st.status ≠ Status.InProgress) :
    applyMove st row col = Except.error MoveError.GameOver := by
  unfold applyMove
  rw [if_pos h]

lemma applyMove_oob {st : GameState} {row col : Int}
    (hstat : st.status = Status.InProgress)
    (h : ¬((0 : Int) ≤ row ∧ row ≤ 2 ∧ (0 : Int) ≤ col ∧ col ≤ 2)) :
    applyMove st row col = Except.error MoveError.OutOfBounds := by
  unfold applyMove
  rw [if_neg (not_not_intro hstat), dif_neg h]

lemma applyMove_occupied {st : GameState} (r c : Fin 3)
    (hstat : st.status = Status.InProgress) (hocc : st.board r c ≠ Cell.Empty) :
    applyMove st ((r : Nat) : Int) ((c : Nat) : Int) =
      Except.error MoveError.CellOccupied := by
  have hb : (0 : Int) ≤ ((r : Nat) : Int) ∧ ((r : Nat) : Int) ≤ 2 ∧
      (0 : Int) ≤ ((c : Nat) : Int) ∧ ((c : Nat) : Int) ≤ 2 := by
    have hr := r.isLt
    have hc := c.isLt
    omega
  unfold applyMove
  rw [if_neg (not_not_intro hstat), dif_pos hb]
  simp only [Int.toNat_natCast, Fin.eta]
  rw [if_pos hocc]

lemma applyMove_eq_ok_nextState {st : GameState} {row col : Int}
    (h : (applyMove st row col).isOk = true) :
    applyMove st row col = Except.ok (nextState st row col) := by
  revert h
  cases he : applyMove st row col with
  | ok a =>
    intro _
    unfold nextState
    rw [he]
  | error e =>
    intro h
    exact Bool.noConfusion h

lemma reachable_of_playMoves : ∀ {ms : List (Int × Int)} {st0 st : GameState},
    Reachable st0 → playMoves st0 ms = Except.ok st → Reachable st
  | [], st0, st, h0, h => by
    injection h with h4
    subst h4
    exact h0
  | m :: ms, st0, st, h0, h => by
    unfold playMoves at h
    cases he : applyMove st0 m.1 m.2 with
    | error e =>
      rw [he] at h
      exact absurd h (by simp)
    | ok st1 =>
      rw [he] at h
      exact reachable_of_playMoves (Reachable.step h0 he) h

lemma playMoves_active : ∀ (ms : List (Int × Int)) (st0 st : GameState),
    playMoves st0 ms = Except.ok st → st.status = Status.InProgress →
    st.activePlayer =
      (if Even ms.length then st0.activePlayer else st0.activePlayer.other)
  | [], st0, st, h, _ => by
    injection h with h4
    subst h4
    simp
  | m :: ms, st0, st, h, hs => by
    unfold playMoves at h
    cases he : applyMove st0 m.1 m.2 with
    | error e =>
      rw [he] at h
      exact absurd h (by simp)
    | ok st1 =>
      rw [he] at h
      have hst1 : st1.status = Status.InProgress := by
        cases ms with
        | nil =>
          injection h with h4
          subst h4
          exact hs
        | cons m2 ms2 =>
          unfold playMoves at h
          cases he2 : applyMove st1 m2.1 m2.2 with
          | error e =>
            rw [he2] at h
            exact absurd h (by simp)
          | ok st2 => exact (applyMove_ok_spec he2).1
      have hflip : st1.activePlayer = st0.activePlayer.other := by
        obtain ⟨-, r, c, -, -, -, hap⟩ := applyMove_ok_spec he
        rw [hap, if_pos hst1]
      have ih := playMoves_active ms st1 st h hs
      rw [ih, hflip]
      by_cases hev : Even ms.length
      · simp [hev, List.length_cons, Nat.even_add_one, Symbol.other_other]
      · simp [hev, List.length_cons, Nat.even_add_one, Symbol.other_other]

lemma applyMove_parity {st st2 : GameState} {row col : Int}
    (h : applyMove st row col = Except.ok st2)
    (hinv : (countMark st.board Cell.MarkX = countMark st.board Cell.MarkO ∨
             countMark st.board Cell.MarkX = countMark st.board Cell.MarkO + 1) ∧
            (st.status = Status.InProgress →
              (countMark st.board Cell.MarkX = countMark st.board Cell.MarkO + 1 ↔
               st.activePlayer = Symbol.O))) :
    (countMark st2.board Cell.MarkX = countMark st2.board Cell.MarkO ∨
     countMark st2.board Cell.MarkX = countMark st2.board Cell.MarkO + 1) ∧
    (st2.status = Status.InProgress →
      (countMark st2.board Cell.MarkX = countMark st2.board Cell.MarkO + 1 ↔
       st2.activePlayer = Symbol.O)) := by
  obtain ⟨hstat, r, c, hemp, hb, hs2, hap⟩ := applyMove_ok_spec h
  obtain ⟨hd, hiff0⟩ := hinv
  have hiff := hiff0 hstat
  have hX := countMark_setCell st.board r c st.activePlayer.mark Cell.MarkX hemp (by decide)
  have hO := countMark_setCell st.board r c st.activePlayer.mark Cell.MarkO hemp (by decide)
  cases hh : st.activePlayer with
  | X =>
    have hmark : st.activePlayer.mark = Cell.MarkX := by rw [hh]; rfl
    rw [hmark, if_pos rfl] at hX
    rw [hmark, if_neg (by decide), Nat.add_zero] at hO
    rw [hh] at hiff
    have heq : countMark st.board Cell.MarkX = countMark st.board Cell.MarkO := by
      rcases hd with h1 | h1
      · exact h1
      · exact absurd (hiff.mp h1) (by decide)
    rw [hb, hmark, hX, hO]
    constructor
    · right
      omega
    · intro hs
      rw [hap, if_pos hs, hh]
      constructor
      · intro _
        rfl
      · intro _
        omega
  | O =>
    have hmark : st.activePlayer.mark = Cell.MarkO := by rw [hh]; rfl
    rw [hmark, if_neg (by decide), Nat.add_zero] at hX
    rw [hmark, if_pos rfl] at hO
    rw [hh] at hiff
    have heq : countMark st.board Cell.MarkX = countMark st.board Cell.MarkO + 1 :=
      hiff.mpr rfl
    rw [hb, hmark, hX, hO]
    constructor
    · left
      omega
    · intro hs
      rw [hap, if_pos hs, hh]
      constructor
      · intro he
        omega
      · intro he
        exact Symbol.noConfusion he

/-- The state after X's opening move at (0,0). -/
def afterOne : GameState := nextState resetGame 0 0

/-- The state after the further move O(1,1). -/
def afterTwo : GameState := nextState afterOne 1 1

/-- C1: from a state whose status is InProgress, a move at any in-range Empty
cell succeeds; the new board is the old board with exactly that cell set to the
active player's mark, and the new status is Won of a symbol owning a complete
line when one of the 8 winning lines holds three cells of one symbol, else Draw
when all 9 cells are occupied, else InProgress. -/
theorem applyMove_success_spec (st : GameState) (r c : Fin 3)
    (hstat : st.status = Status.InProgress) (hemp : st.board r c = Cell.Empty) :
    ∃ st2, applyMove st ((r : Nat) : Int) ((c : Nat) : Int) = Except.ok st2 ∧
      st2.board r c = st.activePlayer.mark ∧
      (∀ i j, ¬(i = r ∧ j = c) → st2.board i j = st.board i j) ∧
      ((∃ s, hasWinLine st2.board s) →
        ∃ s, hasWinLine st2.board s ∧ st2.status = Status.Won s) ∧
      ((∀ s, ¬ hasWinLine st2.board s) → fullBoard st2.board →
        st2.status = Status.Draw) ∧
      ((∀ s, ¬ hasWinLine st2.board s) → ¬ fullBoard st2.board →
        st2.status = Status.InProgress) := by
  refine ⟨moveResult st r c, applyMove_eq_ok st r c hstat hemp, ?_, ?_, ?_, ?_, ?_⟩
  · exact setCell_same _ _ _ _
  · intro i j hij
    exact setCell_other _ _ _ _ hij
  · intro hwin
    have hst : (moveResult st r c).status = computeStatus (moveResult st r c).board := rfl
    rw [hst]
    exact computeStatus_of_win hwin
  · intro hno hfull
    have hst : (moveResult st r c).status = computeStatus (moveResult st r c).board := rfl
    rw [hst, computeStatus_no_win hno, if_pos hfull]
  · intro hno hnf
    have hst : (moveResult st r c).status = computeStatus (moveResult st r c).board := rfl
    rw [hst, computeStatus_no_win hno, if_neg hnf]

/-- Witness for C1: on the empty initial board the move X(0,0) succeeds. -/
theorem applyMove_success_spec_witness :
    resetGame.status = Status.InProgress ∧ resetGame.board 0 0 = Cell.Empty ∧
    (∃ st2, applyMove resetGame (((0 : Fin 3) : Nat) : Int) (((0 : Fin 3) : Nat) : Int) =
        Except.ok st2 ∧
      st2.board 0 0 = resetGame.activePlayer.mark ∧
      (∀ i j, ¬(i = (0 : Fin 3) ∧ j = (0 : Fin 3)) → st2.board i j = resetGame.board i j) ∧
      ((∃ s, hasWinLine st2.board s) →
        ∃ s, hasWinLine st2.board s ∧ st2.status = Status.Won s) ∧
      ((∀ s, ¬ hasWinLine st2.board s) → fullBoard st2.board →
        st2.status = Status.Draw) ∧
      ((∀ s, ¬ hasWinLine st2.board s) → ¬ fullBoard st2.board →
        st2.status = Status.InProgress)) :=
  ⟨rfl, rfl, applyMove_success_spec resetGame 0 0 rfl rfl⟩

/-- C2: applyMove rejects exactly the precondition violations, checked in the
order GameOver (status not InProgress, whatever the coordinates), then
OutOfBounds (row or col outside [0,2]), then CellOccupied (target not Empty);
every rejection is an explicit error value, and a move fails exactly when some
precondition is violated. -/
theorem applyMove_error_spec (st : GameState) (row col : Int) :
    (st.status ≠ Status.InProgress →
      applyMove st row col = Except.error MoveError.GameOver) ∧
    (st.status = Status.InProgress →
      ¬((0 : Int) ≤ row ∧ row ≤ 2 ∧ (0 : Int) ≤ col ∧ col ≤ 2) →
      applyMove st row col = Except.error MoveError.OutOfBounds) ∧
    (∀ r c : Fin 3, row = ((r : Nat) : Int) → col = ((c : Nat) : Int) →
      st.status = Status.InProgress → st.board r c ≠ Cell.Empty →
      applyMove st row col = Except.error MoveError.CellOccupied) ∧
    ((∃ e, applyMove st row col = Except.error e) ↔
      ¬(st.status = Status.InProgress ∧
        ∃ r c : Fin 3, row = ((r : Nat) : Int) ∧ col = ((c : Nat) : Int) ∧
          st.board r c = Cell.Empty)) := by
  refine ⟨applyMove_gameOver row col, fun hstat hb => applyMove_oob hstat hb, ?_, ?_⟩
  · intro r c hr hc hstat hocc
    subst hr
    subst hc
    exact applyMove_occupied r c hstat hocc
  · constructor
    · rintro ⟨e, he⟩ ⟨hstat, r, c, hr, hc, hemp⟩
      subst hr
      subst hc
      rw [applyMove_eq_ok st r c hstat hemp] at he
      exact absurd he (by simp)
    · intro hn
      by_cases hstat : st.status = Status.InProgress
      · by_cases hb : (0 : Int) ≤ row ∧ row ≤ 2 ∧ (0 : Int) ≤ col ∧ col ≤ 2
        · have hr0 : (0 : Int) ≤ row := hb.1
          have hc0 : (0 : Int) ≤ col := hb.2.2.1
          have hrlt : row.toNat < 3 := by omega
          have hclt : col.toNat < 3 := by omega
          have hrow : row = (((⟨row.toNat, hrlt⟩ : Fin 3) : Nat) : Int) :=
            (Int.toNat_of_nonneg hr0).symm
          have hcol : col = (((⟨col.toNat, hclt⟩ : Fin 3) : Nat) : Int) :=
            (Int.toNat_of_nonneg hc0).symm
          have hocc : st.board ⟨row.toNat, hrlt⟩ ⟨col.toNat, hclt⟩ ≠ Cell.Empty := by
            intro hemp
            exact hn ⟨hstat, ⟨row.toNat, hrlt⟩, ⟨col.toNat, hclt⟩, hrow, hcol, hemp⟩
          refine ⟨MoveError.CellOccupied, ?_⟩
          rw [hrow, hcol]
          exact applyMove_occupied _ _ hstat hocc
        · exact ⟨MoveError.OutOfBounds, applyMove_oob hstat hb⟩
      · exact ⟨MoveError.GameOver, applyMove_gameOver row col hstat⟩

/-- Witness for C2: on the fresh board the out-of-range move (5,0) is rejected
with OutOfBounds. -/
theorem applyMove_error_spec_witness :
    resetGame.status = Status.InProgress ∧
    ¬((0 : Int) ≤ (5 : Int) ∧ (5 : Int) ≤ 2 ∧ (0 : Int) ≤ (0 : Int) ∧ (0 : Int) ≤ 2) ∧
    applyMove resetGame 5 0 = Except.error MoveError.OutOfBounds :=
  ⟨rfl, by decide, (applyMove_error_spec resetGame 5 0).2.1 rfl (by decide)⟩

/-- C6: a rejected move leaves the driver's state exactly the old state, and
applyMove is a pure function of the state and the coordinates. -/
theorem applyMove_rejection_pure (st : GameState) (row col : Int) :
    (∀ e, applyMove st row col = Except.error e → nextState st row col = st) ∧
    (∀ st2, st = st2 → applyMove st row col = applyMove st2 row col) := by
  constructor
  · intro e he
    unfold nextState
    rw [he]
  · intro st2 h
    rw [h]

/-- Witness for C6: the rejected out-of-range move (5,0) leaves the initial
state unchanged. -/
theorem applyMove_rejection_pure_witness :
    applyMove resetGame 5 0 = Except.error MoveError.OutOfBounds ∧
    nextState resetGame 5 0 = resetGame :=
  ⟨rfl, (applyMove_rejection_pure resetGame 5 0).1 MoveError.OutOfBounds rfl⟩

/-- C7: resetGame is a constant returning the initial state: all 9 cells
Empty, X active, status InProgress; its board agrees with the lessons' 3×3
initialGameBoard whose entries are all null. -/
theorem resetGame_initial_constant :
    (∀ i j, resetGame.board i j = Cell.Empty) ∧
    resetGame.activePlayer = Symbol.X ∧
    resetGame.status = Status.InProgress ∧
    initialGameBoard.length = 3 ∧
    (∀ row ∈ initialGameBoard, row.length = 3 ∧ ∀ e ∈ row, e = none) ∧
    (∀ i j : Fin 3, entryAt (i : Nat) (j : Nat) = some none) := by
  refine ⟨fun i j => rfl, rfl, rfl, rfl, ?_, ?_⟩
  · decide
  · decide

/-- Witness for C7: the first row of initialGameBoard is a row of three null
cells and the corresponding engine cell is Empty. -/
theorem resetGame_initial_constant_witness :
    resetGame.board 0 0 = Cell.Empty ∧
    ([none, none, none] : List (Option Symbol)) ∈ initialGameBoard ∧
    ([none, none, none] : List (Option Symbol)).length = 3 :=
  ⟨resetGame_initial_constant.1 0 0, by decide,
    (resetGame_initial_constant.2.2.2.2.1 [none, none, none] (by decide)).1⟩

/-- C8: an accepted move never changes an already non-Empty cell (a rejected
move produces no state at all), and resetGame alone returns cells to Empty. -/
theorem cell_never_reverts :
    (∀ (st st2 : GameState) (row col : Int) (i j : Fin 3),
      applyMove st row col = Except.ok st2 → st.board i j ≠ Cell.Empty →
      st2.board i j = st.board i j) ∧
    (∀ i j : Fin 3, resetGame.board i j = Cell.Empty) := by
  constructor
  · intro st st2 row col i j h hne
    obtain ⟨-, r, c, hemp, hb, -, -⟩ := applyMove_ok_spec h
    rw [hb]
    refine setCell_other _ _ _ _ ?_
    rintro ⟨h1, h2⟩
    subst h1
    subst h2
    exact hne hemp
  · intro i j
    rfl

/-- Witness for C8: the accepted move O(1,1) preserves the X mark at (0,0). -/
theorem cell_never_reverts_witness :
    applyMove afterOne 1 1 = Except.ok afterTwo ∧
    afterOne.board 0 0 ≠ Cell.Empty ∧
    afterTwo.board 0 0 = afterOne.board 0 0 :=
  ⟨applyMove_eq_ok_nextState rfl, by decide,
    cell_never_reverts.1 afterOne afterTwo 1 1 0 0 (applyMove_eq_ok_nextState rfl)
      (by decide)⟩

/-- C3: an accepted move flips the active player exactly when the new status
is InProgress and keeps it on a terminal status; hence over accepted move
sequences from the initial state the active player strictly alternates X, O,
X, … while the game runs, and the §8 winning scenario ends in Won(X) with the
active player still X. -/
theorem activePlayer_alternation :
    (∀ (st st2 : GameState) (row col : Int), applyMove st row col = Except.ok st2 →
      (st2.status = Status.InProgress → st2.activePlayer = st.activePlayer.other) ∧
      (st2.status ≠ Status.InProgress → st2.activePlayer = st.activePlayer)) ∧
    (∀ (ms : List (Int × Int)) (st : GameState),
      playMoves resetGame ms = Except.ok st → st.status = Status.InProgress →
      st.activePlayer = (if Even ms.length then Symbol.X else Symbol.O)) ∧
    (∃ st, playMoves resetGame scenarioMoves = Except.ok st ∧
      st.status = Status.Won Symbol.X ∧ st.activePlayer = Symbol.X) := by
  refine ⟨?_, ?_, scenarioFinal, playMoves_scenario, by decide, by decide⟩
  · intro st st2 row col h
    obtain ⟨-, r, c, -, -, -, hap⟩ := applyMove_ok_spec h
    constructor
    · intro hs
      rw [hap, if_pos hs]
    · intro hs
      rw [hap, if_neg hs]
  · intro ms st h hs
    rw [playMoves_active ms resetGame st h hs]
    by_cases hev : Even ms.length
    · rw [if_pos hev, if_pos hev]
      rfl
    · rw [if_neg hev, if_neg hev]
      rfl

/-- Witness for C3: the accepted opening move X(0,0) keeps the game running
and hands the turn to O. -/
theorem activePlayer_alternation_witness :
    applyMove resetGame 0 0 = Except.ok afterOne ∧
    afterOne.status = Status.InProgress ∧
    afterOne.activePlayer = resetGame.activePlayer.other :=
  ⟨applyMove_eq_ok_nextState rfl, by decide,
    (activePlayer_alternation.1 resetGame afterOne 0 0
      (applyMove_eq_ok_nextState rfl)).1 (by decide)⟩

/-- C4 counterexample: the §8 winning scenario reaches a Won(X) state in which
X holds one mark more than O while the active player is X, not O, so the
claimed equivalence between a mark difference of 1 and O being active fails
for reachable terminal states. -/
theorem mark_parity_counterexample :
    Reachable scenarioFinal ∧
    countMark scenarioFinal.board Cell.MarkX = countMark scenarioFinal.board Cell.MarkO + 1 ∧
    scenarioFinal.activePlayer ≠ Symbol.O ∧
    ¬((countMark scenarioFinal.board Cell.MarkX =
        countMark scenarioFinal.board Cell.MarkO + 1) ↔
      scenarioFinal.activePlayer = Symbol.O) :=
  ⟨reachable_of_playMoves Reachable.init playMoves_scenario, by decide, by decide, by decide⟩

/-- C4 (amended): in every reachable state X holds zero or one more mark than
O, and while the status is still InProgress the difference is 1 exactly when
it is O's turn; on terminal states the active player stays on the last mover,
so there the equivalence is not guaranteed. -/
theorem reachable_mark_parity (st : GameState) (h : Reachable st) :
    (countMark st.board Cell.MarkX = countMark st.board Cell.MarkO ∨
     countMark st.board Cell.MarkX = countMark st.board Cell.MarkO + 1) ∧
    (st.status = Status.InProgress →
      (countMark st.board Cell.MarkX = countMark st.board Cell.MarkO + 1 ↔
       st.activePlayer = Symbol.O)) := by
  induction h with
  | init =>
    have h1 : countMark resetGame.board Cell.MarkX = 0 := by decide
    have h2 : countMark resetGame.board Cell.MarkO = 0 := by decide
    constructor
    · left
      rw [h1, h2]
    · intro _
      constructor
      · intro he
        rw [h1, h2] at he
        exact absurd he (by decide)
      · intro hO
        exact Symbol.noConfusion hO
  | step hr hap ih => exact applyMove_parity hap ih

/-- Witness for C4 (amended): the initial state is reachable, has equal (zero)
mark counts, and it is not O's turn. -/
theorem reachable_mark_parity_witness :
    (countMark resetGame.board Cell.MarkX = countMark resetGame.board Cell.MarkO ∨
     countMark resetGame.board Cell.MarkX = countMark resetGame.board Cell.MarkO + 1) ∧
    (resetGame.status = Status.InProgress →
      (countMark resetGame.board Cell.MarkX = countMark resetGame.board Cell.MarkO + 1 ↔
       resetGame.activePlayer = Symbol.O)) :=
  reachable_mark_parity resetGame Reachable.init

/-- C5: in every reachable state, status Won(s) implies one of the 8 lines is
fully occupied by s, and status Draw implies the board is full and no line is
fully occupied by one symbol. -/
theorem reachable_status_sound (st : GameState) (h : Reachable st) :
    (∀ s, st.status = Status.Won s → hasWinLine st.board s) ∧
    (st.status = Status.Draw → fullBoard st.board ∧ ∀ s, ¬ hasWinLine st.board s) := by
  cases h with
  | init =>
    constructor
    · intro s hs
      exact Status.noConfusion hs
    · intro hs
      exact Status.noConfusion hs
  | step hr hap =>
    obtain ⟨-, r, c, -, -, hstat, -⟩ := applyMove_ok_spec hap
    constructor
    · intro s hs
      rw [hs] at hstat
      exact computeStatus_won hstat.symm
    · intro hs
      rw [hs] at hstat
      exact computeStatus_draw hstat.symm

/-- Witness for C5: the reachable Won(X) scenario state exhibits an X line. -/
theorem reachable_status_sound_witness :
    scenarioFinal.status = Status.Won Symbol.X ∧ hasWinLine scenarioFinal.board Symbol.X :=
  ⟨by decide,
    (reachable_status_sound scenarioFinal
      (reachable_of_playMoves Reachable.init playMoves_scenario)).1 Symbol.X (by decide)⟩

/-- C9: applied to the fixed initialGameBoard value, GameBoard renders exactly
three rows in order, each an inner ordered list of exactly three cell buttons
in column order; the button at (rowIndex, colIndex) displays the entry
initialGameBoard[rowIndex][colIndex], and since every entry is null all 9
buttons render empty. -/
theorem gameBoard_initial_render :
    GameBoard = PNode.elem Tag.ol [(AttrName.elemId, AttrVal.gameBoard)]
      [PNode.elem Tag.li []
        [PNode.elem Tag.ol []
          [PNode.elem Tag.li [] [PNode.elem Tag.button [] []],
           PNode.elem Tag.li [] [PNode.elem Tag.button [] []],
           PNode.elem Tag.li [] [PNode.elem Tag.button [] []]]],
       PNode.elem Tag.li []
        [PNode.elem Tag.ol []
          [PNode.elem Tag.li [] [PNode.elem Tag.button [] []],
           PNode.elem Tag.li [] [PNode.elem Tag.button [] []],
           PNode.elem Tag.li [] [PNode.elem Tag.button [] []]]],
       PNode.elem Tag.li []
        [PNode.elem Tag.ol []
          [PNode.elem Tag.li [] [PNode.elem Tag.button [] []],
           PNode.elem Tag.li [] [PNode.elem Tag.button [] []],
           PNode.elem Tag.li [] [PNode.elem Tag.button [] []]]]] ∧
    (∀ i j : Fin 3, ∃ e, entryAt (i : Nat) (j : Nat) = some e ∧
      buttonAt GameBoard (i : Nat) (j : Nat) =
        some (PNode.elem Tag.button [] (buttonChildren e))) ∧
    (∀ i j : Fin 3, buttonAt GameBoard (i : Nat) (j : Nat) =
      some (PNode.elem Tag.button [] [])) := by
  refine ⟨rfl, ?_, ?_⟩
  · intro i j
    refine ⟨none, ?_, ?_⟩
    · fin_cases i <;> fin_cases j <;> rfl
    · fin_cases i <;> fin_cases j <;> rfl
  · intro i j
    fin_cases i <;> fin_cases j <;> rfl

/-- C10: the shipped Player component is a pure function of its name and
symbol props — equal props render identical output — and its output is the
name text span, the symbol text span and a static Edit button, with no
edit-mode input field anywhere in the tree. -/
theorem player_render_stateless (α : Type) :
    (∀ n1 s1 n2 s2 : α, n1 = n2 → s1 = s2 → Player α n1 s1 = Player α n2 s2) ∧
    (∀ name symbol : α,
      Player α name symbol =
        PNode.elem Tag.li []
          [PNode.elem Tag.span [(AttrName.className, AttrVal.player)]
            [PNode.elem Tag.span [(AttrName.className, AttrVal.playerName)]
              [PNode.textNode name],
             PNode.elem Tag.span [(AttrName.classSymobol, AttrVal.playerName)]
              [PNode.textNode symbol]],
           PNode.elem Tag.button [] [PNode.caption Caption.edit]] ∧
      hasTag Tag.textInput (Player α name symbol) = false ∧
      hasTag Tag.button (Player α name symbol) = true) := by
  constructor
  · intro n1 s1 n2 s2 h1 h2
    rw [h1, h2]
  · intro name symbol
    refine ⟨rfl, ?_, ?_⟩
    · simp [Player, hasTag, hasTagList]
    · simp [Player, hasTag, hasTagList]

/-- Witness for C10: two renders of Player with the same prop pair coincide. -/
theorem player_render_stateless_witness :
    Symbol.X = Symbol.X ∧ Symbol.O = Symbol.O ∧
    Player Symbol Symbol.X Symbol.O = Player Symbol Symbol.X Symbol.O :=
  ⟨rfl, rfl, (player_render_stateless Symbol).1 Symbol.X Symbol.O Symbol.X Symbol.O rfl rfl⟩

end TicTacToe
